import Mathlib

/-!
Shallow embedding of the tinyNav API core (src/functions/api/links.ts) and of
the helper modules it imports. The router source under src/ is embedded
directly; the normalize / auth / storage helper modules are not part of the
provided sources, so they are modelled from the specification (each such
definition carries a doc comment saying so). Host primitives (JS string trim,
URL parsing, regex title extraction, HMAC verification, fetch) are modelled by
explicit Lean functions or oracle parameters as noted.
-/

namespace TinyNav

/-- Model of the JS `String.prototype.trim()` host primitive: drop leading and
trailing whitespace characters. -/
def jsTrim (s : String) : String :=
  String.mk (((s.toList.dropWhile Char.isWhitespace).reverse.dropWhile Char.isWhitespace).reverse)

/-- A group record, as in the stored document (`enabled` may be absent). -/
structure Group where
  id : String
  name : String
  order : Int
  enabled : Option Bool
deriving DecidableEq, Repr

/-- A section record. -/
structure Section where
  id : String
  groupId : String
  name : String
  order : Int
deriving DecidableEq, Repr

/-- A link record (`sectionId`, `icon`, `description` optional). -/
structure LinkItem where
  id : String
  groupId : String
  sectionId : Option String
  title : String
  url : String
  icon : Option String
  description : Option String
  order : Int
deriving DecidableEq, Repr

/-- The site settings singleton. -/
structure Settings where
  siteTitle : String
  siteSubtitle : String
  homeTagline : String
  siteIconDataUrl : String
  faviconDataUrl : String
  siteIconFit : String
deriving DecidableEq, Repr

/-- The aggregate persisted document. A stored document may lack `settings`;
a missing `sections` / `links` / `groups` array is modelled as the empty list
(the handlers read `data.sections ?? []`, which is then the identity). -/
structure NavData where
  settings : Option Settings
  groups : List Group
  sections : List Section
  links : List LinkItem
deriving DecidableEq, Repr

/-- Modelled from the spec: the `data` module (not under src/) provides the
default settings; values as documented in the repository README. -/
def defaultSettings : Settings :=
  { siteTitle := "TinyNav"
    siteSubtitle := "个人导航"
    homeTagline := "轻盈、克制、随手可用。"
    siteIconDataUrl := ""
    faviconDataUrl := ""
    siteIconFit := "contain" }

/-- Modelled from the spec: the normalize module (not under src/) assigns
default settings when missing. -/
def normalizeSettings (s : Option Settings) : Settings :=
  s.getD defaultSettings

/-- Coercion of a group performed by normalization: `enabled` defaults to true
when absent. -/
def coerceGroup (g : Group) : Group :=
  { g with enabled := some (g.enabled.getD true) }

/-- Modelled from the spec: the normalize module is not under src/. Per the
spec it fills missing arrays with empty, assigns default settings for missing
fields, drops links/sections referencing non-existent groups, and coerces
`enabled` to true when absent. -/
def normalizeData (d : NavData) : NavData :=
  let groups := d.groups.map coerceGroup
  { settings := some (normalizeSettings d.settings)
    groups := groups
    sections := d.sections.filter (fun s => groups.any (fun g => g.id == s.groupId))
    links := d.links.filter (fun l => groups.any (fun g => g.id == l.groupId)) }

/-- Validity of a document: settings present, every `enabled` present, every
section and link references an existing group. -/
def validDoc (d : NavData) : Prop :=
  d.settings.isSome = true ∧
  (∀ g ∈ d.groups, g.enabled.isSome = true) ∧
  (∀ s ∈ d.sections, ∃ g ∈ d.groups, g.id = s.groupId) ∧
  (∀ l ∈ d.links, ∃ g ∈ d.groups, g.id = l.groupId)

instance validDocDecidable (d : NavData) : Decidable (validDoc d) := by
  unfold validDoc
  infer_instance

/-- Next display order used by the create handlers:
`arr.length ? Math.max(...arr) + 1 : 0`. -/
def nextOrderOf (orders : List Int) : Int :=
  match orders with
  | [] => 0
  | x :: xs => xs.foldl max x + 1

/-- The router expression `l.sectionId?.trim() || undefined`: trim an optional
section id and turn an empty result into `undefined`. -/
def optSecTrim (s : Option String) : Option String :=
  match s with
  | some v => if jsTrim v == "" then none else some (jsTrim v)
  | none => none

/-- Replace the first element satisfying the predicate (the router does
`arr[findIndex] = x`). -/
def setFirst (p : α → Bool) (x : α) : List α → List α
  | [] => []
  | y :: ys => if p y then x :: ys else y :: setFirst p x ys

/-- Lookup in a JS `Map` built from an entry list: the last entry with the key
wins. -/
def mapGet (entries : List (String × α)) (k : String) : Option α :=
  (entries.reverse.find? (fun e => e.1 == k)).map (·.2)

/-- Handler for `POST /api/admin/groups` (src/functions/api/links.ts:443-456):
append a group with order `max(existing)+1` (0 when empty), normalize, save.
Returns the created group and the saved document. -/
def createGroup (d : NavData) (name newId : String) : Group × NavData :=
  let nextOrder := nextOrderOf (d.groups.map (·.order))
  let group : Group := { id := newId, name := name, order := nextOrder, enabled := some true }
  (group, normalizeData { d with groups := d.groups ++ [group] })

/-- Handler for `PUT /api/admin/groups/:id` (links.ts:461-476). -/
def updateGroup (d : NavData) (id : String) (name : Option String) (enabled : Option Bool) :
    Except Nat NavData :=
  match d.groups.find? (fun g => g.id == id) with
  | none => Except.error 404
  | some g =>
    let g2 : Group :=
      { g with
        name := name.getD g.name
        enabled := match enabled with | some b => some b | none => g.enabled }
    Except.ok (normalizeData { d with groups := setFirst (fun x => x.id == id) g2 d.groups })

/-- Handler for `DELETE /api/admin/groups/:id` (links.ts:477-487): drop the
group, its links and its sections; 404 (no save) when absent. -/
def deleteGroup (d : NavData) (id : String) : Except Nat NavData :=
  let groups := d.groups.filter (fun g => g.id != id)
  if groups.length == d.groups.length then Except.error 404
  else
    Except.ok (normalizeData
      { d with
        groups := groups
        sections := d.sections.filter (fun s => s.groupId != id)
        links := d.links.filter (fun l => l.groupId != id) })

/-- Handler for `POST /api/admin/sections` (links.ts:491-509): 404 when the
group is absent; otherwise append a section with order `max(in-group)+1`
(0 when the group has none). Returns the created section and the saved
document. -/
def createSection (d : NavData) (groupId name newId : String) :
    Except Nat (Section × NavData) :=
  if d.groups.any (fun g => g.id == groupId) then
    let inGroup := d.sections.filter (fun s => s.groupId == groupId)
    let nextOrder := nextOrderOf (inGroup.map (·.order))
    let sec : Section := { id := newId, groupId := groupId, name := name, order := nextOrder }
    Except.ok (sec, normalizeData { d with sections := d.sections ++ [sec] })
  else Except.error 404

/-- Handler for `DELETE /api/admin/sections/:id` (links.ts:532-541): remove
the section and clear `sectionId` on links that referenced it; 404 (no save)
when absent. -/
def deleteSection (d : NavData) (id : String) : Except Nat NavData :=
  if d.sections.any (fun s => s.id == id) then
    Except.ok (normalizeData
      { d with
        sections := d.sections.filter (fun s => s.id != id)
        links := d.links.map (fun l =>
          if l.sectionId == some id then { l with sectionId := none } else l) })
  else Except.error 404

/-- Parsed body of `POST /api/admin/links` (schema CreateLinkBody,
links.ts:236-243). The zod schema trims `title`/`description`; the handler
itself re-trims `sectionId` and `icon`. -/
structure CreateLinkBody where
  groupId : String
  sectionId : Option String
  title : String
  url : String
  description : Option String
  icon : Option String
deriving DecidableEq, Repr

/-- The section id actually stored by the create-link handler: the trimmed
supplied id when it names a section of the target group, `undefined`
otherwise (links.ts:555-557). -/
def createLinkSectionId (d : NavData) (b : CreateLinkBody) : Option String :=
  match optSecTrim b.sectionId with
  | some sid =>
    if d.sections.any (fun s => s.id == sid && s.groupId == b.groupId) then some sid else none
  | none => none

/-- The links of the (groupId, sectionId) bucket used for order assignment
(links.ts:558). -/
def linkBucket (d : NavData) (groupId : String) (sectionId : Option String) : List LinkItem :=
  d.links.filter (fun l => l.groupId == groupId && optSecTrim l.sectionId == sectionId)

/-- Handler for `POST /api/admin/links` (links.ts:545-567). `fallbackIcon`
stands for `normalizeFaviconUrl(parsed.url, ...)`, whose URL parsing is a host
primitive. Returns the created link and the saved document. -/
def createLink (d : NavData) (b : CreateLinkBody) (newId fallbackIcon : String) :
    Except Nat (LinkItem × NavData) :=
  if d.groups.any (fun g => g.id == b.groupId) then
    let validSectionId := createLinkSectionId d b
    let nextOrder := nextOrderOf ((linkBucket d b.groupId validSectionId).map (·.order))
    let icon :=
      match b.icon with
      | some i => if jsTrim i == "" then fallbackIcon else jsTrim i
      | none => fallbackIcon
    let description :=
      match b.description with
      | some s => if s == "" then none else some s
      | none => none
    let link : LinkItem :=
      { id := newId, groupId := b.groupId, sectionId := validSectionId, title := b.title
        url := b.url, icon := some icon, description := description, order := nextOrder }
    Except.ok (link, normalizeData { d with links := d.links ++ [link] })
  else Except.error 404

/-- Parsed body of `PUT /api/admin/links/:id` (schema UpdateLinkBody,
links.ts:245-254). `sectionId` is optional and nullable: `none` when absent,
`some none` for null, `some (some s)` for a string. -/
structure UpdateLinkBody where
  groupId : Option String
  sectionId : Option (Option String)
  title : Option String
  url : Option String
  description : Option String
  icon : Option String
deriving DecidableEq, Repr

/-- Line 585 of the PUT link handler:
`parsed.sectionId === null || parsed.sectionId === "" ? undefined :
parsed.sectionId` (an absent field also reads back as `undefined`). -/
def updateLinkRawSectionId (b : UpdateLinkBody) : Option String :=
  match b.sectionId with
  | some (some s) => if s == "" then none else some s
  | _ => none

/-- Lines 586-587 of the PUT link handler: the supplied section id is kept
only when it names a section of the target group. -/
def updateLinkNextSectionId (d : NavData) (nextGroupId : String) (raw : Option String) :
    Option String :=
  match raw with
  | some sid =>
    if d.sections.any (fun s => s.id == sid && s.groupId == nextGroupId) then some sid
    else none
  | none => none

/-- The replacement link record built by the PUT link handler
(links.ts:583-611). -/
def updateLinkNew (d : NavData) (current : LinkItem) (b : UpdateLinkBody)
    (fallbackIcon : String) : LinkItem :=
  let nextGroupId := b.groupId.getD current.groupId
  let nextSectionId := updateLinkNextSectionId d nextGroupId (updateLinkRawSectionId b)
  let nextUrl := b.url.getD current.url
  let icon :=
    match b.icon with
    | none => current.icon
    | some i => if jsTrim i == "" then some fallbackIcon else some (jsTrim i)
  let movedBucket :=
    nextGroupId != current.groupId || nextSectionId != optSecTrim current.sectionId
  let nextOrder :=
    if movedBucket then nextOrderOf ((linkBucket d nextGroupId nextSectionId).map (·.order))
    else current.order
  { id := current.id
    groupId := nextGroupId
    sectionId := nextSectionId
    title := b.title.getD current.title
    url := nextUrl
    icon := icon
    description :=
      match b.description with
      | some s => if s == "" then none else some s
      | none => current.description
    order := nextOrder }

/-- Handler for `PUT /api/admin/links/:id` (links.ts:572-616). Returns the
updated link and the saved document. -/
def updateLink (d : NavData) (id : String) (b : UpdateLinkBody) (fallbackIcon : String) :
    Except Nat (LinkItem × NavData) :=
  match d.links.find? (fun l => l.id == id) with
  | none => Except.error 404
  | some current =>
    if d.groups.any (fun g => g.id == b.groupId.getD current.groupId) then
      let newLink := updateLinkNew d current b fallbackIcon
      Except.ok
        (newLink, normalizeData { d with links := setFirst (fun l => l.id == id) newLink d.links })
    else Except.error 404

/-- Handler for `DELETE /api/admin/links/:id` (links.ts:617-625). -/
def deleteLink (d : NavData) (id : String) : Except Nat NavData :=
  let links := d.links.filter (fun l => l.id != id)
  if links.length == d.links.length then Except.error 404
  else Except.ok (normalizeData { d with links := links })

/-- An entry of the reorder body for groups or sections. -/
structure ReorderEntry where
  id : String
  order : Int
deriving DecidableEq, Repr

/-- An entry of the reorder body for links: explicit order plus an optional
bucket move (optional `groupId`, optional-nullable `sectionId`). -/
structure ReorderLinkEntry where
  id : String
  order : Int
  groupId : Option String
  sectionId : Option (Option String)
deriving DecidableEq, Repr

/-- The section id stored for a link named in a reorder patch:
`p.sectionId === null || p.sectionId === "" ? undefined : p.sectionId`
(an absent `sectionId` also reads back as `undefined`). -/
def reorderSectionId (p : Option (Option String)) : Option String :=
  match p with
  | some (some s) => if s == "" then none else some s
  | _ => none

/-- Application of the reorder group patch map to one group
(links.ts:642). -/
def applyGroupPatch (groupPatch : List (String × Int)) (g : Group) : Group :=
  match mapGet groupPatch g.id with
  | some o => { g with order := o }
  | none => g

/-- Application of the reorder section patch map to one section
(links.ts:643). -/
def applySectionPatch (sectionPatch : List (String × Int)) (s : Section) : Section :=
  match mapGet sectionPatch s.id with
  | some o => { s with order := o }
  | none => s

/-- Application of the reorder link patch map to one link
(links.ts:644-652). -/
def applyLinkPatch (linkPatch : List (String × ReorderLinkEntry)) (l : LinkItem) : LinkItem :=
  match mapGet linkPatch l.id with
  | some p =>
    { l with
      groupId := p.groupId.getD l.groupId
      sectionId := reorderSectionId p.sectionId
      order := p.order }
  | none => l

/-- Handler for `POST /api/admin/reorder` (links.ts:629-657): build id-keyed
patch maps, apply all of them to the one loaded document, normalize, and save
once. The source skips a map step when its patch is empty; mapping with an
empty patch is the identity, so the embedding applies the maps
unconditionally. -/
def reorder (d : NavData) (gps sps : List ReorderEntry) (lps : List ReorderLinkEntry) : NavData :=
  let groups := d.groups.map (applyGroupPatch (gps.map (fun g => (g.id, g.order))))
  let sections := d.sections.map (applySectionPatch (sps.map (fun s => (s.id, s.order))))
  let links := d.links.map (applyLinkPatch (lps.map (fun l => (l.id, l))))
  normalizeData { d with groups := groups, sections := sections, links := links }

/-- Modelled from the spec: the storage module (getLoginFail, not under src/)
keeps a per-IP failure record; lookup returns the first entry for the key. -/
def storeGet (st : List (String × Int)) (ip : String) : Option Int :=
  (st.find? (fun e => e.1 == ip)).map (·.2)

/-- Modelled from the spec: deleteLoginFail removes the record of the IP. -/
def storeDelete (st : List (String × Int)) (ip : String) : List (String × Int) :=
  st.filter (fun e => e.1 != ip)

/-- Modelled from the spec: putLoginFail overwrites the record of the IP. -/
def storePut (st : List (String × Int)) (ip : String) (v : Int) : List (String × Int) :=
  storeDelete st ip ++ [(ip, v)]

/-- The sleep penalty formula of the login handler (links.ts:339):
`Math.min(8000, 700 + fails * 700)`. -/
def loginPenalty (fails : Int) : Int :=
  min 8000 (700 + fails * 700)

/-- Milliseconds slept by the login handler for a request from `ip`: the
penalty when the recorded failure count is positive, 0 otherwise
(links.ts:337-341). -/
def loginDelay (st : List (String × Int)) (ip : String) : Int :=
  let fails : Int := max 0 ((storeGet st ip).getD 0)
  if fails > 0 then loginPenalty fails else 0

/-- Outcome of one `POST /api/login` request: milliseconds slept before
validation, the response status, and the failure store after the request. -/
structure LoginOutcome where
  penaltyMs : Int
  status : Nat
  failStore : List (String × Int)
deriving DecidableEq, Repr

/-- Handler for `POST /api/login` (links.ts:329-370). `password` is
`env.PASSWORD`, `body` the password field of the request body (none when
missing). The sleep happens before the body is read and the password
compared; here that ordering is captured by `penaltyMs`, which is computed
from the failure store alone. -/
def login (password : Option String) (st : List (String × Int)) (ip : String)
    (body : Option String) : LoginOutcome :=
  let serverPassword := jsTrim (password.getD "")
  if serverPassword == "" then { penaltyMs := 0, status := 503, failStore := st }
  else
    let fails : Int := max 0 ((storeGet st ip).getD 0)
    let penalty : Int := if fails > 0 then loginPenalty fails else 0
    let provided := jsTrim (body.getD "")
    if provided == "" then { penaltyMs := penalty, status := 400, failStore := st }
    else if provided != serverPassword then
      { penaltyMs := penalty, status := 401, failStore := storePut st ip (fails + 1) }
    else { penaltyMs := penalty, status := 200, failStore := storeDelete st ip }

/-- Model of `String.prototype.startsWith`. -/
def strStartsWith (s pat : String) : Bool :=
  pat.toList.isPrefixOf s.toList

/-- Model of `String.prototype.endsWith`. -/
def strEndsWith (s pat : String) : Bool :=
  pat.toList.reverse.isPrefixOf s.toList.reverse

/-- Model of `String.prototype.includes` for a single character. -/
def strHasChar (s : String) (c : Char) : Bool :=
  s.toList.contains c

/-- Split a character list on the dot character (JS `host.split(".")`). -/
def splitOnDot : List Char → List (List Char)
  | [] => [[]]
  | c :: rest =>
    let r := splitOnDot rest
    if c = '.' then [] :: r
    else
      match r with
      | h :: t => (c :: h) :: t
      | [] => [[c]]

/-- Value of a run of decimal digits (JS `Number` on a digit string). -/
def digitsToNat (l : List Char) : Nat :=
  l.foldl (fun n c => n * 10 + (c.toNat - 48)) 0

/-- True when the string has the shape of the regex
`^\d{1,3}(\.\d{1,3}){3}$`: four dot-separated runs of one to three digits. -/
def isIPv4Shape (host : String) : Bool :=
  let parts := splitOnDot host.toList
  parts.length == 4 &&
    parts.all (fun p => 1 ≤ p.length && p.length ≤ 3 && p.all Char.isDigit)

/-- Model of `String.prototype.toLowerCase` restricted to ASCII (hostnames). -/
def jsLower (s : String) : String :=
  String.mk (s.toList.map Char.toLower)

/-- Guard `isIpHostname` (links.ts:86-91): IPv6-ish (contains a colon) or
dotted-quad hostnames count as IP literals. -/
def isIpHostname (hostname : String) : Bool :=
  let host := jsLower (jsTrim hostname)
  if host == "" then false
  else if strHasChar host ':' then true
  else isIPv4Shape host

/-- Guard `isProbablyPrivateHost` (links.ts:93-119). The `172.16-31` branch
reads the digits between the first two dots, as the regex
`^172\.(\d+)\./` does inside the dotted-quad case. -/
def isProbablyPrivateHost (hostname : String) : Bool :=
  let host := jsLower (jsTrim hostname)
  if host == "" then true
  else if host == "localhost" then true
  else if strEndsWith host ".local" then true
  else if host == "::1" then true
  else if strStartsWith host "fe80:" then true
  else if strStartsWith host "fc" || strStartsWith host "fd" then true
  else if isIPv4Shape host then
    if host == "0.0.0.0" then true
    else if strStartsWith host "10." then true
    else if strStartsWith host "127." then true
    else if strStartsWith host "169.254." then true
    else if strStartsWith host "192.168." then true
    else
      match splitOnDot host.toList with
      | p0 :: p1 :: _ =>
        if p0 == "172".toList then
          let n := digitsToNat p1
          decide (16 ≤ n) && decide (n ≤ 31)
        else false
      | _ => false
  else false

/-- The credential/host parts of the parsed request URL (`new URL` is a host
primitive; the guards only read these fields). -/
structure UrlParts where
  username : String
  password : String
  hostname : String
deriving DecidableEq, Repr

/-- Result of the outbound fetch, an external effect: a response with status,
content-type and the title extracted from the truncated body by
`extractOgTitle html ?? extractHtmlTitle html` (a host regex pipeline); or an
abort (timeout); or any other thrown failure. -/
inductive FetchOutcome where
  | success (status : Nat) (contentType : String) (extractedTitle : Option String)
  | timeout
  | failed
deriving DecidableEq, Repr

/-- True when `pat` occurs as a contiguous run inside `l`. -/
def hasInfix (l pat : List Char) : Bool :=
  if pat.isPrefixOf l then true
  else
    match l with
    | [] => false
    | _ :: tl => hasInfix tl pat

/-- Substring containment, modelling JS `String.prototype.includes`. -/
def strContains (s pat : String) : Bool :=
  hasInfix s.toList pat.toList

/-- The `res.ok` field of the Fetch API: status in [200, 300). -/
def resOk (status : Nat) : Bool :=
  200 ≤ status && status < 300

/-- Response status of `POST /api/admin/fetch-title` (links.ts:396-439) for a
parsed URL and a fetch outcome. Guards run before the fetch, so a guarded URL
yields 400 whatever the outcome. -/
def fetchTitleStatus (u : UrlParts) (outcome : FetchOutcome) : Nat :=
  if u.username != "" || u.password != "" then 400
  else if isIpHostname u.hostname then 400
  else if isProbablyPrivateHost u.hostname then 400
  else
    match outcome with
    | FetchOutcome.timeout => 504
    | FetchOutcome.failed => 502
    | FetchOutcome.success status ct extractedTitle =>
      if !resOk status then status
      else
        let ctl := jsLower ct
        if !strContains ctl "text/html" && !strContains ctl "application/xhtml+xml" then 415
        else
          let title := (extractedTitle.map jsTrim).getD ""
          if title == "" then 422 else 200

/-- Predicate `missingPassword` (links.ts:72-74):
`!(env.PASSWORD && String(env.PASSWORD).trim())`. -/
def missingPassword (password : Option String) : Bool :=
  match password with
  | none => true
  | some p => jsTrim p == ""

/-- Verification state of the session cookie presented by a request. -/
inductive TokenState where
  | absent
  | invalid
  | valid
deriving DecidableEq, Repr

/-- Modelled from the spec: `requireAuth` lives in the auth module, not under
src/. Per the spec, missing/invalid auth yields 401 and server
misconfiguration (no password set) yields 503 for admin write paths; `none`
means authorized. -/
def requireAuth (password : Option String) (tok : TokenState) : Option Nat :=
  if missingPassword password then some 503
  else
    match tok with
    | TokenState.valid => none
    | _ => some 401

/-- One admin write operation of the router, with its parsed body. -/
inductive AdminOp where
  | createGroupA (name newId : String)
  | updateGroupA (id : String) (name : Option String) (enabled : Option Bool)
  | deleteGroupA (id : String)
  | createSectionA (groupId name newId : String)
  | deleteSectionA (id : String)
  | createLinkA (b : CreateLinkBody) (newId fallbackIcon : String)
  | updateLinkA (id : String) (b : UpdateLinkBody) (fallbackIcon : String)
  | deleteLinkA (id : String)
  | reorderA (gps sps : List ReorderEntry) (lps : List ReorderLinkEntry)

/-- Run one admin write operation on the loaded document; `ok` carries the
saved document, `error` the response status (nothing saved). -/
def runAdminOp (d : NavData) : AdminOp → Except Nat NavData
  | AdminOp.createGroupA name newId => Except.ok (createGroup d name newId).2
  | AdminOp.updateGroupA id name enabled => updateGroup d id name enabled
  | AdminOp.deleteGroupA id => deleteGroup d id
  | AdminOp.createSectionA groupId name newId => (createSection d groupId name newId).map (·.2)
  | AdminOp.deleteSectionA id => deleteSection d id
  | AdminOp.createLinkA b newId fallbackIcon => (createLink d b newId fallbackIcon).map (·.2)
  | AdminOp.updateLinkA id b fallbackIcon => (updateLink d id b fallbackIcon).map (·.2)
  | AdminOp.deleteLinkA id => deleteLink d id
  | AdminOp.reorderA gps sps lps => Except.ok (reorder d gps sps lps)

/-- Dispatch of `/api/admin/*` (links.ts:381-383): requireAuth first, then the
handler. -/
def adminRoute (password : Option String) (tok : TokenState) (d : NavData) (op : AdminOp) :
    Except Nat NavData :=
  match requireAuth password tok with
  | some st => Except.error st
  | none => runAdminOp d op

/-- Handler for the public `GET /api/links` (links.ts:302-305): status 200
with the normalized document. -/
def getLinksHandler (d : NavData) : Nat × NavData :=
  (200, normalizeData d)

/-- Response of `GET /api/me`: status, the `authed` flag, and whether a
clearing Set-Cookie (empty value, maxAge 0) is appended. -/
structure MeResponse where
  status : Nat
  authed : Bool
  clearsCookie : Bool
deriving DecidableEq, Repr

/-- Handler for `GET /api/me` (links.ts:307-318). `cookieToken` is the session
cookie value (none when absent; the empty string is falsy in the source
check), `verifies` the outcome of `verifySession` (HMAC, a host crypto
primitive). -/
def apiMe (password : Option String) (cookieToken : Option String) (verifies : Bool) :
    MeResponse :=
  if cookieToken.getD "" == "" then { status := 200, authed := false, clearsCookie := false }
  else if missingPassword password then { status := 200, authed := false, clearsCookie := false }
  else if verifies then { status := 200, authed := true, clearsCookie := false }
  else { status := 200, authed := false, clearsCookie := true }

/-! Concrete fixture documents used to instantiate proved properties. -/

/-- A sample group. -/
def gDev : Group :=
  { id := "g1", name := "dev", order := 0, enabled := some true }

/-- A second sample group. -/
def gFun : Group :=
  { id := "g2", name := "fun", order := 5, enabled := some true }

/-- A sample section of group g1. -/
def sTools : Section :=
  { id := "s1", groupId := "g1", name := "tools", order := 0 }

/-- A sample link in the (g1, s1) bucket. -/
def lHub : LinkItem :=
  { id := "l1", groupId := "g1", sectionId := some "s1", title := "hub"
    url := "https://hub.test", icon := none, description := none, order := 3 }

/-- A sample link in the unassigned bucket of g1. -/
def lDocs : LinkItem :=
  { id := "l2", groupId := "g1", sectionId := none, title := "docs"
    url := "https://docs.test", icon := none, description := none, order := 7 }

/-- A small valid sample document. -/
def sampleDoc : NavData :=
  { settings := some defaultSettings
    groups := [gDev, gFun]
    sections := [sTools]
    links := [lHub, lDocs] }

/-! Helper lemmas. -/

theorem le_foldl_max (x : Int) (xs : List Int) : ∀ y ∈ x :: xs, y ≤ xs.foldl max x := by
  induction xs generalizing x with
  | nil =>
    intro y hy
    simp only [List.mem_singleton] at hy
    simp [hy]
  | cons z zs ih =>
    intro y hy
    have hb := ih (max x z)
    simp only [List.foldl_cons]
    rcases List.mem_cons.mp hy with h | h
    · rw [h]; exact le_trans (le_max_left x z) (hb _ (List.mem_cons_self _ _))
    · rcases List.mem_cons.mp h with h2 | h2
      · rw [h2]; exact le_trans (le_max_right x z) (hb _ (List.mem_cons_self _ _))
      · exact hb y (List.mem_cons_of_mem _ h2)

theorem foldl_max_mem (x : Int) (xs : List Int) : xs.foldl max x ∈ x :: xs := by
  induction xs generalizing x with
  | nil => simp
  | cons z zs ih =>
    simp only [List.foldl_cons]
    rcases List.mem_cons.mp (ih (max x z)) with h | h
    · rcases max_choice x z with hm | hm
      · rw [h, hm]; exact List.mem_cons_self _ _
      · rw [h, hm]; exact List.mem_cons_of_mem _ (List.mem_cons_self _ _)
    · exact List.mem_cons_of_mem _ (List.mem_cons_of_mem _ h)

theorem lt_nextOrderOf {orders : List Int} {y : Int} (h : y ∈ orders) :
    y < nextOrderOf orders := by
  match orders with
  | [] => cases h
  | x :: xs =>
    have := le_foldl_max x xs y h
    simpa [nextOrderOf] using Int.lt_add_one_iff.mpr this

theorem nextOrderOf_max_succ {orders : List Int} (h : orders ≠ []) :
    ∃ y ∈ orders, nextOrderOf orders = y + 1 := by
  match orders with
  | [] => exact absurd rfl h
  | x :: xs => exact ⟨xs.foldl max x, foldl_max_mem x xs, rfl⟩

theorem dropWhile_of_prefix_self {α : Type} (p : α → Bool) {T A : List α}
    (hpre : T <+: A) (hself : List.dropWhile p A = A) : List.dropWhile p T = T := by
  cases T with
  | nil => rfl
  | cons c T2 =>
    obtain ⟨t, ht⟩ := hpre
    have hc : p c = false := by
      rw [← ht] at hself
      simp only [List.cons_append] at hself
      by_contra hpc
      have hpc' : p c = true := by
        cases h : p c
        · exact absurd h hpc
        · rfl
      rw [List.dropWhile_cons_of_pos hpc'] at hself
      have hlen := congrArg List.length hself
      have hle := (List.dropWhile_suffix (l := T2 ++ t) p).length_le
      simp only [List.cons_append, List.length_cons] at hlen
      omega
    rw [List.dropWhile_cons_of_neg (by simp [hc])]

theorem jsTrim_eq (s : String) :
    jsTrim s = String.mk (List.rdropWhile Char.isWhitespace
      (List.dropWhile Char.isWhitespace s.toList)) := rfl

theorem jsTrim_idem (s : String) : jsTrim (jsTrim s) = jsTrim s := by
  rw [jsTrim_eq s, jsTrim_eq]
  have htl : (String.mk (List.rdropWhile Char.isWhitespace
        (List.dropWhile Char.isWhitespace s.toList))).toList
      = List.rdropWhile Char.isWhitespace (List.dropWhile Char.isWhitespace s.toList) := rfl
  rw [htl,
    dropWhile_of_prefix_self _ (List.rdropWhile_prefix _ _) (List.dropWhile_idempotent _ _),
    List.rdropWhile_idempotent]

theorem coerceGroup_id (g : Group) : (coerceGroup g).id = g.id := rfl

theorem coerceGroup_idem (g : Group) : coerceGroup (coerceGroup g) = coerceGroup g := rfl

theorem coerceGroup_eq_self {g : Group} (h : g.enabled.isSome = true) : coerceGroup g = g := by
  cases g with
  | mk id name order enabled =>
    cases enabled with
    | none => simp at h
    | some b => rfl

theorem map_coerce_eq_self {gs : List Group} (h : ∀ g ∈ gs, g.enabled.isSome = true) :
    gs.map coerceGroup = gs := by
  rw [List.map_congr_left (fun g hg => coerceGroup_eq_self (h g hg))]
  simp

theorem any_id_map_coerce (gs : List Group) (x : String) :
    (gs.map coerceGroup).any (fun g => g.id == x) = gs.any (fun g => g.id == x) := by
  rw [List.any_map]; rfl

theorem normalizeData_def (d : NavData) :
    normalizeData d =
      { settings := some (normalizeSettings d.settings)
        groups := d.groups.map coerceGroup
        sections := d.sections.filter
          (fun s => (d.groups.map coerceGroup).any (fun g => g.id == s.groupId))
        links := d.links.filter
          (fun l => (d.groups.map coerceGroup).any (fun g => g.id == l.groupId)) } := rfl

theorem validDoc_normalizeData (d : NavData) : validDoc (normalizeData d) := by
  rw [normalizeData_def]
  refine ⟨rfl, ?_, ?_, ?_⟩
  · intro g hg
    obtain ⟨g0, _, hg0⟩ := List.mem_map.mp hg
    rw [← hg0]
    simp [coerceGroup]
  · intro s hs
    obtain ⟨hmem, hpred⟩ := List.mem_filter.mp hs
    obtain ⟨g, hgmem, hbeq⟩ := List.any_eq_true.mp hpred
    exact ⟨g, hgmem, by simpa using hbeq⟩
  · intro l hl
    obtain ⟨hmem, hpred⟩ := List.mem_filter.mp hl
    obtain ⟨g, hgmem, hbeq⟩ := List.any_eq_true.mp hpred
    exact ⟨g, hgmem, by simpa using hbeq⟩

theorem normalizeData_of_valid {d : NavData} (h : validDoc d) : normalizeData d = d := by
  obtain ⟨h1, h2, h3, h4⟩ := h
  have hg : d.groups.map coerceGroup = d.groups := map_coerce_eq_self h2
  have hsettings : some (normalizeSettings d.settings) = d.settings := by
    cases hs : d.settings with
    | none => rw [hs] at h1; simp at h1
    | some v => rfl
  have hsec : d.sections.filter
      (fun s => d.groups.any (fun g => g.id == s.groupId)) = d.sections := by
    refine List.filter_eq_self.mpr (fun s hs => ?_)
    obtain ⟨g, hgmem, hid⟩ := h3 s hs
    exact List.any_eq_true.mpr ⟨g, hgmem, by simp [hid]⟩
  have hlink : d.links.filter
      (fun l => d.groups.any (fun g => g.id == l.groupId)) = d.links := by
    refine List.filter_eq_self.mpr (fun l hl => ?_)
    obtain ⟨g, hgmem, hid⟩ := h4 l hl
    exact List.any_eq_true.mpr ⟨g, hgmem, by simp [hid]⟩
  rw [normalizeData_def, hg, hsec, hlink, hsettings]

/-- Claim C6: normalizing twice yields the same result as normalizing once,
and normalization always produces a valid document. The embedding of
`normalizeData` is a total Lean function, so it cannot throw. -/
theorem normalizeData_idempotent_and_valid :
    (∀ d : NavData, normalizeData (normalizeData d) = normalizeData d) ∧
    (∀ d : NavData, validDoc (normalizeData d)) :=
  ⟨fun d => normalizeData_of_valid (validDoc_normalizeData d), validDoc_normalizeData⟩

theorem mem_normalize_groups {d : NavData} {g : Group} (hg : g ∈ d.groups)
    (he : g.enabled.isSome = true) : g ∈ (normalizeData d).groups := by
  rw [normalizeData_def]
  have := List.mem_map_of_mem coerceGroup hg
  rwa [coerceGroup_eq_self he] at this

theorem mem_normalize_sections {d : NavData} {s : Section} (hs : s ∈ d.sections)
    (h : ∃ g ∈ d.groups, g.id = s.groupId) : s ∈ (normalizeData d).sections := by
  rw [normalizeData_def]
  refine List.mem_filter.mpr ⟨hs, ?_⟩
  obtain ⟨g, hgmem, hid⟩ := h
  exact List.any_eq_true.mpr
    ⟨coerceGroup g, List.mem_map_of_mem _ hgmem, by simp [coerceGroup_id, hid]⟩

theorem mem_normalize_links {d : NavData} {l : LinkItem} (hl : l ∈ d.links)
    (h : ∃ g ∈ d.groups, g.id = l.groupId) : l ∈ (normalizeData d).links := by
  rw [normalizeData_def]
  refine List.mem_filter.mpr ⟨hl, ?_⟩
  obtain ⟨g, hgmem, hid⟩ := h
  exact List.any_eq_true.mpr
    ⟨coerceGroup g, List.mem_map_of_mem _ hgmem, by simp [coerceGroup_id, hid]⟩

theorem normalize_sections_sub {d : NavData} {s : Section}
    (hs : s ∈ (normalizeData d).sections) : s ∈ d.sections := by
  rw [normalizeData_def] at hs
  exact (List.mem_filter.mp hs).1

theorem normalize_links_sub {d : NavData} {l : LinkItem}
    (hl : l ∈ (normalizeData d).links) : l ∈ d.links := by
  rw [normalizeData_def] at hl
  exact (List.mem_filter.mp hl).1

theorem normalize_groups_sub {d : NavData} {g : Group}
    (hg : g ∈ (normalizeData d).groups) : ∃ g0 ∈ d.groups, g = coerceGroup g0 := by
  rw [normalizeData_def] at hg
  obtain ⟨g0, hmem, hg0⟩ := List.mem_map.mp hg
  exact ⟨g0, hmem, hg0.symm⟩

/-- Claim C2: deleting an existing group removes the group and every section
and link of that group from the saved document; deleting a missing group is a
404 and nothing is saved (the handler returns before `saveData`). -/
theorem deleteGroup_cascades (d : NavData) (id : String) :
    ((∃ g ∈ d.groups, g.id = id) →
      ∃ d2, deleteGroup d id = Except.ok d2 ∧
        (∀ g ∈ d2.groups, g.id ≠ id) ∧
        (∀ s ∈ d2.sections, s.groupId ≠ id) ∧
        (∀ l ∈ d2.links, l.groupId ≠ id)) ∧
    ((¬ ∃ g ∈ d.groups, g.id = id) → deleteGroup d id = Except.error 404) := by
  constructor
  · rintro ⟨g0, hg0, hid0⟩
    have hlen : (d.groups.filter (fun g => g.id != id)).length ≠ d.groups.length := by
      intro hEq
      have := List.filter_length_eq_length.mp hEq g0 hg0
      simp [hid0] at this
    refine ⟨normalizeData
      { d with
        groups := d.groups.filter (fun g => g.id != id)
        sections := d.sections.filter (fun s => s.groupId != id)
        links := d.links.filter (fun l => l.groupId != id) }, ?_, ?_, ?_, ?_⟩
    · rw [deleteGroup, if_neg (by simpa using hlen)]
    · intro g hg
      obtain ⟨g1, hg1, hg1eq⟩ := normalize_groups_sub hg
      have := (List.mem_filter.mp hg1).2
      rw [hg1eq, coerceGroup_id]
      simpa using this
    · intro s hs
      have := (List.mem_filter.mp (normalize_sections_sub hs)).2
      simpa using this
    · intro l hl
      have := (List.mem_filter.mp (normalize_links_sub hl)).2
      simpa using this
  · intro hne
    have hall : ∀ g ∈ d.groups, (g.id != id) = true := by
      intro g hg
      have : g.id ≠ id := fun h => hne ⟨g, hg, h⟩
      simpa using this
    have : (d.groups.filter (fun g => g.id != id)).length = d.groups.length := by
      rw [List.filter_eq_self.mpr hall]
    rw [deleteGroup, if_pos (by simpa using this)]

/-- Claim C5: deleting an existing section of a valid document removes only
that section, clears `sectionId` on exactly the links that referenced it
(leaving all their other fields intact), deletes no link, and leaves groups
and the other sections unchanged. -/
theorem deleteSection_frame (d : NavData) (id : String)
    (hv : validDoc d) (hex : ∃ s ∈ d.sections, s.id = id) :
    ∃ d2, deleteSection d id = Except.ok d2 ∧
      (∀ s ∈ d2.sections, s.id ≠ id) ∧
      d2.groups = d.groups ∧
      d2.links.length = d.links.length ∧
      (∀ l ∈ d.links, l.sectionId = some id → { l with sectionId := none } ∈ d2.links) ∧
      (∀ l ∈ d.links, l.sectionId ≠ some id → l ∈ d2.links) ∧
      (∀ s ∈ d.sections, s.id ≠ id → s ∈ d2.sections) := by
  obtain ⟨hset, hgen, hsecv, hlinkv⟩ := hv
  have hcond : d.sections.any (fun s => s.id == id) = true := by
    obtain ⟨s0, hs0, hid0⟩ := hex
    exact List.any_eq_true.mpr ⟨s0, hs0, by simp [hid0]⟩
  set f : LinkItem → LinkItem :=
    fun l => if l.sectionId == some id then { l with sectionId := none } else l with hf
  set dmid : NavData :=
    { d with
      sections := d.sections.filter (fun s => s.id != id)
      links := d.links.map f } with hdmid
  have hrun : deleteSection d id = Except.ok (normalizeData dmid) := by
    rw [deleteSection, if_pos hcond]
  have hgroups : (normalizeData dmid).groups = d.groups := by
    rw [normalizeData_def]
    exact map_coerce_eq_self hgen
  have hfgroup : ∀ l : LinkItem, (f l).groupId = l.groupId := by
    intro l
    rw [hf]
    by_cases h : l.sectionId = some id
    · simp [h]
    · simp [h]
  have hlinks : (normalizeData dmid).links = d.links.map f := by
    rw [normalizeData_def]
    refine List.filter_eq_self.mpr (fun l hl => ?_)
    obtain ⟨l0, hl0, hl0eq⟩ := List.mem_map.mp hl
    obtain ⟨g, hgmem, hid⟩ := hlinkv l0 hl0
    refine List.any_eq_true.mpr ⟨coerceGroup g, List.mem_map_of_mem _ hgmem, ?_⟩
    rw [← hl0eq]
    simp [coerceGroup_id, hfgroup, hid]
  refine ⟨normalizeData dmid, hrun, ?_, hgroups, ?_, ?_, ?_, ?_⟩
  · intro s hs
    have hsub := normalize_sections_sub hs
    have := (List.mem_filter.mp hsub).2
    simpa using this
  · rw [hlinks, List.length_map]
  · intro l hl hsid
    rw [hlinks]
    have := List.mem_map_of_mem f hl
    rwa [show f l = { l with sectionId := none } by rw [hf]; simp [hsid]] at this
  · intro l hl hsid
    rw [hlinks]
    have := List.mem_map_of_mem f hl
    rwa [show f l = l by rw [hf]; simp [hsid]] at this
  · intro s hs hsid
    have hmem2 : s ∈ dmid.sections := List.mem_filter.mpr ⟨hs, by simpa using hsid⟩
    have hgrp : ∃ g ∈ dmid.groups, g.id = s.groupId := hsecv s hs
    exact mem_normalize_sections hmem2 hgrp

/-- Concrete instantiation of the group-delete cascade: deleting g1 from the
sample document, and a 404 for a missing id. -/
theorem deleteGroup_cascades_witness :
    (∃ g ∈ sampleDoc.groups, g.id = "g1") ∧
    (∃ d2, deleteGroup sampleDoc "g1" = Except.ok d2 ∧
      (∀ g ∈ d2.groups, g.id ≠ "g1") ∧
      (∀ s ∈ d2.sections, s.groupId ≠ "g1") ∧
      (∀ l ∈ d2.links, l.groupId ≠ "g1")) ∧
    (¬ ∃ g ∈ sampleDoc.groups, g.id = "zz") ∧
    deleteGroup sampleDoc "zz" = Except.error 404 :=
  ⟨by decide, (deleteGroup_cascades sampleDoc "g1").1 (by decide), by decide,
    (deleteGroup_cascades sampleDoc "zz").2 (by decide)⟩

/-- Concrete instantiation of the section-delete frame property: deleting s1
from the sample document. -/
theorem deleteSection_frame_witness :
    validDoc sampleDoc ∧ (∃ s ∈ sampleDoc.sections, s.id = "s1") ∧
    (∃ d2, deleteSection sampleDoc "s1" = Except.ok d2 ∧
      (∀ s ∈ d2.sections, s.id ≠ "s1") ∧
      d2.groups = sampleDoc.groups ∧
      d2.links.length = sampleDoc.links.length ∧
      (∀ l ∈ sampleDoc.links, l.sectionId = some "s1" →
        { l with sectionId := none } ∈ d2.links) ∧
      (∀ l ∈ sampleDoc.links, l.sectionId ≠ some "s1" → l ∈ d2.links) ∧
      (∀ s ∈ sampleDoc.sections, s.id ≠ "s1" → s ∈ d2.sections)) :=
  ⟨by decide, by decide, deleteSection_frame sampleDoc "s1" (by decide) (by decide)⟩

theorem groupExists_normalize {d : NavData} {x : String}
    (h : ∃ g ∈ d.groups, g.id = x) : ∃ g ∈ (normalizeData d).groups, g.id = x := by
  obtain ⟨g, hg, hid⟩ := h
  rw [normalizeData_def]
  exact ⟨coerceGroup g, List.mem_map_of_mem _ hg, by rw [coerceGroup_id, hid]⟩

theorem createGroup_order (d : NavData) (name newId : String) :
    (∀ g ∈ d.groups, g.order < (createGroup d name newId).1.order) ∧
    (d.groups = [] → (createGroup d name newId).1.order = 0) ∧
    (d.groups ≠ [] → ∃ g ∈ d.groups, (createGroup d name newId).1.order = g.order + 1) := by
  refine ⟨?_, ?_, ?_⟩
  · intro g hg
    exact lt_nextOrderOf (List.mem_map_of_mem (·.order) hg)
  · intro h
    simp [createGroup, h, nextOrderOf]
  · intro h
    have hne : d.groups.map (·.order) ≠ [] := by simpa using h
    obtain ⟨y, hy, heq⟩ := nextOrderOf_max_succ hne
    obtain ⟨g, hgmem, hgy⟩ := List.mem_map.mp hy
    exact ⟨g, hgmem, by rw [show (createGroup d name newId).1.order
      = nextOrderOf (d.groups.map (·.order)) from rfl, heq, hgy]⟩

theorem createGroup_mem (d : NavData) (name newId : String) :
    (createGroup d name newId).1 ∈ (createGroup d name newId).2.groups := by
  refine mem_normalize_groups ?_ rfl
  exact List.mem_append.mpr (Or.inr (List.mem_singleton.mpr rfl))

theorem createGroup_seq (d : NavData) (n1 i1 n2 i2 : String) :
    (createGroup d n1 i1).1.order
      < (createGroup (createGroup d n1 i1).2 n2 i2).1.order :=
  (createGroup_order (createGroup d n1 i1).2 n2 i2).1 _ (createGroup_mem d n1 i1)

theorem createSection_spec (d : NavData) (gid name newId : String)
    (hg : ∃ g ∈ d.groups, g.id = gid) :
    ∃ sec,
      createSection d gid name newId
          = Except.ok (sec, normalizeData { d with sections := d.sections ++ [sec] }) ∧
      sec.groupId = gid ∧
      (∀ s ∈ d.sections, s.groupId = gid → s.order < sec.order) ∧
      (d.sections.filter (fun s => s.groupId == gid) = [] → sec.order = 0) ∧
      (d.sections.filter (fun s => s.groupId == gid) ≠ [] →
        ∃ s0 ∈ d.sections, s0.groupId = gid ∧ sec.order = s0.order + 1) ∧
      sec ∈ (normalizeData { d with sections := d.sections ++ [sec] }).sections := by
  have hcond : d.groups.any (fun g => g.id == gid) = true := by
    obtain ⟨g, hgm, hid⟩ := hg
    exact List.any_eq_true.mpr ⟨g, hgm, by simp [hid]⟩
  set inGroup := d.sections.filter (fun s => s.groupId == gid) with hin
  set sec : Section :=
    { id := newId, groupId := gid, name := name, order := nextOrderOf (inGroup.map (·.order)) }
    with hsec
  refine ⟨sec, ?_, rfl, ?_, ?_, ?_, ?_⟩
  · rw [createSection, if_pos hcond]
  · intro s hs hgidEq
    have hmem : s ∈ inGroup := List.mem_filter.mpr ⟨hs, by simp [hgidEq]⟩
    exact lt_nextOrderOf (List.mem_map_of_mem (·.order) hmem)
  · intro h
    show nextOrderOf (inGroup.map (·.order)) = 0
    rw [h]
    rfl
  · intro h
    have hne : inGroup.map (·.order) ≠ [] := by simpa using h
    obtain ⟨y, hy, heq⟩ := nextOrderOf_max_succ hne
    obtain ⟨s0, hs0mem, hs0y⟩ := List.mem_map.mp hy
    have hs0sec := List.mem_filter.mp hs0mem
    refine ⟨s0, hs0sec.1, by simpa using hs0sec.2, ?_⟩
    rw [hsec]
    rw [heq, hs0y]
  · refine mem_normalize_sections (List.mem_append.mpr (Or.inr (List.mem_singleton.mpr rfl))) ?_
    exact hg

theorem createSection_seq (d : NavData) (gid n1 i1 n2 i2 : String)
    (hg : ∃ g ∈ d.groups, g.id = gid) :
    ∀ s1 d1 s2 d2, createSection d gid n1 i1 = Except.ok (s1, d1) →
      createSection d1 gid n2 i2 = Except.ok (s2, d2) → s1.order < s2.order := by
  intro s1 d1 s2 d2 h1 h2
  obtain ⟨sec, hrun, hsgid, _, _, _, hmem⟩ := createSection_spec d gid n1 i1 hg
  rw [hrun] at h1
  simp only [Except.ok.injEq, Prod.mk.injEq] at h1
  obtain ⟨hseq, hdeq⟩ := h1
  have hg1 : ∃ g ∈ d1.groups, g.id = gid := by
    rw [← hdeq]
    exact groupExists_normalize hg
  obtain ⟨sec2, hrun2, _, hlt2, _, _, _⟩ := createSection_spec d1 gid n2 i2 hg1
  rw [hrun2] at h2
  simp only [Except.ok.injEq, Prod.mk.injEq] at h2
  obtain ⟨hseq2, _⟩ := h2
  have hs1mem : s1 ∈ d1.sections := by
    rw [← hdeq, ← hseq]
    exact hmem
  have hs1gid : s1.groupId = gid := by rw [← hseq]; exact hsgid
  have := hlt2 s1 hs1mem hs1gid
  rw [hseq2] at this
  exact this

theorem optSecTrim_of_eq_some {s : Option String} {sid : String}
    (h : optSecTrim s = some sid) : optSecTrim (some sid) = some sid := by
  cases s with
  | none => exact absurd h (by simp [optSecTrim])
  | some v =>
    rw [show optSecTrim (some v) = if jsTrim v == "" then none else some (jsTrim v) from rfl]
      at h
    by_cases hv : jsTrim v = ""
    · rw [if_pos (by simp [hv])] at h
      exact absurd h (by simp)
    · rw [if_neg (by simpa using hv)] at h
      have hsid := Option.some.inj h
      show (if jsTrim sid == "" then none else some (jsTrim sid) : Option String) = some sid
      rw [← hsid, jsTrim_idem, if_neg (by simpa using hv)]

theorem createLinkSectionId_trim (d : NavData) (b : CreateLinkBody) :
    optSecTrim (createLinkSectionId d b) = createLinkSectionId d b := by
  rw [createLinkSectionId]
  cases h : optSecTrim b.sectionId with
  | none => rfl
  | some sid =>
    show optSecTrim
        (if d.sections.any (fun s => s.id == sid && s.groupId == b.groupId) then some sid
          else none)
      = (if d.sections.any (fun s => s.id == sid && s.groupId == b.groupId) then some sid
          else none)
    by_cases hc : d.sections.any (fun s => s.id == sid && s.groupId == b.groupId) = true
    · rw [if_pos hc]
      exact optSecTrim_of_eq_some h
    · rw [if_neg hc]
      rfl

theorem createLinkSectionId_congr {d1 d2 : NavData} (b : CreateLinkBody)
    (h : d1.sections = d2.sections) : createLinkSectionId d1 b = createLinkSectionId d2 b := by
  simp only [createLinkSectionId, h]

theorem createLink_spec (d : NavData) (b : CreateLinkBody) (newId fallbackIcon : String)
    (hg : ∃ g ∈ d.groups, g.id = b.groupId) :
    ∃ link,
      createLink d b newId fallbackIcon
          = Except.ok (link, normalizeData { d with links := d.links ++ [link] }) ∧
      link.groupId = b.groupId ∧
      link.sectionId = createLinkSectionId d b ∧
      (∀ l ∈ linkBucket d b.groupId (createLinkSectionId d b), l.order < link.order) ∧
      (linkBucket d b.groupId (createLinkSectionId d b) = [] → link.order = 0) ∧
      (linkBucket d b.groupId (createLinkSectionId d b) ≠ [] →
        ∃ l0 ∈ linkBucket d b.groupId (createLinkSectionId d b), link.order = l0.order + 1) ∧
      link ∈ (normalizeData { d with links := d.links ++ [link] }).links := by
  have hcond : d.groups.any (fun g => g.id == b.groupId) = true := by
    obtain ⟨g, hgm, hid⟩ := hg
    exact List.any_eq_true.mpr ⟨g, hgm, by simp [hid]⟩
  refine ⟨{ id := newId, groupId := b.groupId, sectionId := createLinkSectionId d b
            title := b.title, url := b.url
            icon := some (match b.icon with
              | some i => if jsTrim i == "" then fallbackIcon else jsTrim i
              | none => fallbackIcon)
            description := match b.description with
              | some s => if s == "" then none else some s
              | none => none
            order := nextOrderOf ((linkBucket d b.groupId (createLinkSectionId d b)).map
              (·.order)) },
    ?_, rfl, rfl, ?_, ?_, ?_, ?_⟩
  · unfold createLink
    rw [if_pos hcond]
  · intro l hl
    exact lt_nextOrderOf (List.mem_map_of_mem (·.order) hl)
  · intro h
    show nextOrderOf ((linkBucket d b.groupId (createLinkSectionId d b)).map (·.order)) = 0
    rw [h]
    rfl
  · intro h
    have hne : (linkBucket d b.groupId (createLinkSectionId d b)).map (·.order) ≠ [] := by
      simpa using h
    obtain ⟨y, hy, heq⟩ := nextOrderOf_max_succ hne
    obtain ⟨l0, hl0mem, hl0y⟩ := List.mem_map.mp hy
    refine ⟨l0, hl0mem, ?_⟩
    show nextOrderOf ((linkBucket d b.groupId (createLinkSectionId d b)).map (·.order))
      = l0.order + 1
    rw [heq, hl0y]
  · refine mem_normalize_links (List.mem_append.mpr (Or.inr (List.mem_singleton.mpr rfl))) hg

theorem valid_insert_link_normalize (d : NavData) (link : LinkItem) (hv : validDoc d) :
    (normalizeData { d with links := d.links ++ [link] }).groups = d.groups ∧
    (normalizeData { d with links := d.links ++ [link] }).sections = d.sections := by
  obtain ⟨h1, h2, h3, h4⟩ := hv
  constructor
  · rw [normalizeData_def]
    exact map_coerce_eq_self h2
  · rw [normalizeData_def]
    show d.sections.filter (fun s => (d.groups.map coerceGroup).any (fun g => g.id == s.groupId))
      = d.sections
    rw [map_coerce_eq_self h2]
    exact List.filter_eq_self.mpr (fun s hs => by
      obtain ⟨g, hgm, hid⟩ := h3 s hs
      exact List.any_eq_true.mpr ⟨g, hgm, by simp [hid]⟩)

theorem createLink_seq (d : NavData) (b : CreateLinkBody) (i1 f1 i2 f2 : String)
    (hv : validDoc d) (hg : ∃ g ∈ d.groups, g.id = b.groupId) :
    ∀ l1 d1 l2 d2, createLink d b i1 f1 = Except.ok (l1, d1) →
      createLink d1 b i2 f2 = Except.ok (l2, d2) → l1.order < l2.order := by
  intro l1 d1 l2 d2 h1 h2
  obtain ⟨link, hrun, hlinkg, hlsid, _, _, _, hmem⟩ := createLink_spec d b i1 f1 hg
  rw [hrun] at h1
  simp only [Except.ok.injEq, Prod.mk.injEq] at h1
  obtain ⟨hleq, hdeq⟩ := h1
  have hnorm := valid_insert_link_normalize d link hv
  have hg1 : ∃ g ∈ d1.groups, g.id = b.groupId := by
    rw [← hdeq, hnorm.1]
    exact hg
  obtain ⟨link2, hrun2, _, _, hlt2, _, _, _⟩ := createLink_spec d1 b i2 f2 hg1
  rw [hrun2] at h2
  simp only [Except.ok.injEq, Prod.mk.injEq] at h2
  obtain ⟨hleq2, _⟩ := h2
  have hsec1 : d1.sections = d.sections := by
    rw [← hdeq]
    exact hnorm.2
  have hkey : createLinkSectionId d1 b = createLinkSectionId d b :=
    createLinkSectionId_congr b hsec1
  have hl1mem : l1 ∈ linkBucket d1 b.groupId (createLinkSectionId d1 b) := by
    refine List.mem_filter.mpr ⟨by rw [← hdeq, ← hleq]; exact hmem, ?_⟩
    rw [← hleq, hkey]
    simp [hlinkg, hlsid, createLinkSectionId_trim]
  have := hlt2 l1 hl1mem
  rw [hleq2] at this
  exact this

/-- Claim C1: every create endpoint (groups, sections, links) assigns the new
item an order strictly above every existing order in its bucket, equal to
max(bucket)+1 when the bucket is nonempty and to 0 when it is empty; hence two
consecutive creates into the same bucket yield strictly increasing orders, so
N sequential creates are strictly increasing. -/
theorem create_order_assignment :
    (∀ (d : NavData) (name newId : String),
      (∀ g ∈ d.groups, g.order < (createGroup d name newId).1.order) ∧
      (d.groups = [] → (createGroup d name newId).1.order = 0) ∧
      (d.groups ≠ [] → ∃ g ∈ d.groups, (createGroup d name newId).1.order = g.order + 1)) ∧
    (∀ (d : NavData) (n1 i1 n2 i2 : String),
      (createGroup d n1 i1).1.order < (createGroup (createGroup d n1 i1).2 n2 i2).1.order) ∧
    (∀ (d : NavData) (gid name newId : String), (∃ g ∈ d.groups, g.id = gid) →
      ∃ sec d2, createSection d gid name newId = Except.ok (sec, d2) ∧
        (∀ s ∈ d.sections, s.groupId = gid → s.order < sec.order) ∧
        (d.sections.filter (fun s => s.groupId == gid) = [] → sec.order = 0) ∧
        (d.sections.filter (fun s => s.groupId == gid) ≠ [] →
          ∃ s0 ∈ d.sections, s0.groupId = gid ∧ sec.order = s0.order + 1)) ∧
    (∀ (d : NavData) (gid n1 i1 n2 i2 : String), (∃ g ∈ d.groups, g.id = gid) →
      ∀ s1 d1 s2 d2, createSection d gid n1 i1 = Except.ok (s1, d1) →
        createSection d1 gid n2 i2 = Except.ok (s2, d2) → s1.order < s2.order) ∧
    (∀ (d : NavData) (b : CreateLinkBody) (newId fallbackIcon : String),
      (∃ g ∈ d.groups, g.id = b.groupId) →
      ∃ link d2, createLink d b newId fallbackIcon = Except.ok (link, d2) ∧
        (∀ l ∈ linkBucket d b.groupId (createLinkSectionId d b), l.order < link.order) ∧
        (linkBucket d b.groupId (createLinkSectionId d b) = [] → link.order = 0) ∧
        (linkBucket d b.groupId (createLinkSectionId d b) ≠ [] →
          ∃ l0 ∈ linkBucket d b.groupId (createLinkSectionId d b),
            link.order = l0.order + 1)) ∧
    (∀ (d : NavData) (b : CreateLinkBody) (i1 f1 i2 f2 : String),
      validDoc d → (∃ g ∈ d.groups, g.id = b.groupId) →
      ∀ l1 d1 l2 d2, createLink d b i1 f1 = Except.ok (l1, d1) →
        createLink d1 b i2 f2 = Except.ok (l2, d2) → l1.order < l2.order) := by
  refine ⟨createGroup_order, createGroup_seq, ?_, createSection_seq, ?_, createLink_seq⟩
  · intro d gid name newId hg
    obtain ⟨sec, hrun, _, hlt, hemp, hnon, _⟩ := createSection_spec d gid name newId hg
    exact ⟨sec, _, hrun, hlt, hemp, hnon⟩
  · intro d b newId fallbackIcon hg
    obtain ⟨link, hrun, _, _, hlt, hemp, hnon, _⟩ := createLink_spec d b newId fallbackIcon hg
    exact ⟨link, _, hrun, hlt, hemp, hnon⟩

theorem mapGet_eq_none {α : Type} {entries : List (String × α)} {k : String}
    (h : ∀ e ∈ entries, e.1 ≠ k) : mapGet entries k = none := by
  have hfind : entries.reverse.find? (fun e => e.1 == k) = none :=
    List.find?_eq_none.mpr (fun x hx => by simpa using h x (List.mem_reverse.mp hx))
  rw [mapGet, hfind]
  rfl

theorem applyGroupPatch_id (P : List (String × Int)) (g : Group) :
    (applyGroupPatch P g).id = g.id := by
  cases h : mapGet P g.id <;> simp [applyGroupPatch, h]

theorem applyGroupPatch_enabled (P : List (String × Int)) (g : Group) :
    (applyGroupPatch P g).enabled = g.enabled := by
  cases h : mapGet P g.id <;> simp [applyGroupPatch, h]

theorem applyGroupPatch_of_some {P : List (String × Int)} {g : Group} {o : Int}
    (h : mapGet P g.id = some o) : applyGroupPatch P g = { g with order := o } := by
  simp [applyGroupPatch, h]

theorem applyGroupPatch_of_none {P : List (String × Int)} {g : Group}
    (h : mapGet P g.id = none) : applyGroupPatch P g = g := by
  simp [applyGroupPatch, h]

theorem applySectionPatch_of_some {P : List (String × Int)} {s : Section} {o : Int}
    (h : mapGet P s.id = some o) : applySectionPatch P s = { s with order := o } := by
  simp [applySectionPatch, h]

theorem applySectionPatch_of_none {P : List (String × Int)} {s : Section}
    (h : mapGet P s.id = none) : applySectionPatch P s = s := by
  simp [applySectionPatch, h]

theorem applyLinkPatch_of_some {P : List (String × ReorderLinkEntry)} {l : LinkItem}
    {p : ReorderLinkEntry} (h : mapGet P l.id = some p) :
    applyLinkPatch P l =
      { l with
        groupId := p.groupId.getD l.groupId
        sectionId := reorderSectionId p.sectionId
        order := p.order } := by
  simp [applyLinkPatch, h]

theorem applyLinkPatch_of_none {P : List (String × ReorderLinkEntry)} {l : LinkItem}
    (h : mapGet P l.id = none) : applyLinkPatch P l = l := by
  simp [applyLinkPatch, h]

/-- Claim C3: one reorder request applies every supplied (id, order) pair for
groups, sections and links, together with any supplied bucket move
(groupId/sectionId) on links, to the single loaded document, which is then
saved once (the embedding `reorder` produces that one saved document); every
entity whose id is not named in the body is carried over unchanged. A link
moved to a new groupId keeps both its new order and its new groupId in the
saved document provided the target group exists (normalization drops links
whose group does not exist). -/
theorem reorder_applies_batch (d : NavData) (gps sps : List ReorderEntry)
    (lps : List ReorderLinkEntry) (hv : validDoc d) :
    (∀ g ∈ d.groups, ∀ o, mapGet (gps.map (fun e => (e.id, e.order))) g.id = some o →
      ({ g with order := o } : Group) ∈ (reorder d gps sps lps).groups) ∧
    (∀ g ∈ d.groups, (∀ e ∈ gps, e.id ≠ g.id) → g ∈ (reorder d gps sps lps).groups) ∧
    (∀ s ∈ d.sections, ∀ o, mapGet (sps.map (fun e => (e.id, e.order))) s.id = some o →
      ({ s with order := o } : Section) ∈ (reorder d gps sps lps).sections) ∧
    (∀ s ∈ d.sections, (∀ e ∈ sps, e.id ≠ s.id) → s ∈ (reorder d gps sps lps).sections) ∧
    (∀ l ∈ d.links, ∀ p, mapGet (lps.map (fun e => (e.id, e))) l.id = some p →
      (∃ g ∈ d.groups, g.id = p.groupId.getD l.groupId) →
      ({ l with
          groupId := p.groupId.getD l.groupId
          sectionId := reorderSectionId p.sectionId
          order := p.order } : LinkItem) ∈ (reorder d gps sps lps).links) ∧
    (∀ l ∈ d.links, (∀ e ∈ lps, e.id ≠ l.id) → l ∈ (reorder d gps sps lps).links) := by
  obtain ⟨hset, hgen, hsecv, hlinkv⟩ := hv
  set GP := gps.map (fun e : ReorderEntry => (e.id, e.order)) with hGP
  set SP := sps.map (fun e : ReorderEntry => (e.id, e.order)) with hSP
  set LP := lps.map (fun e : ReorderLinkEntry => (e.id, e)) with hLP
  set dmid : NavData :=
    { d with
      groups := d.groups.map (applyGroupPatch GP)
      sections := d.sections.map (applySectionPatch SP)
      links := d.links.map (applyLinkPatch LP) } with hdmid
  have hreo : reorder d gps sps lps = normalizeData dmid := rfl
  have hgrpex : ∀ x : String, (∃ g ∈ d.groups, g.id = x) → ∃ g ∈ dmid.groups, g.id = x := by
    rintro x ⟨g0, hg0, hid⟩
    exact ⟨applyGroupPatch GP g0, List.mem_map_of_mem _ hg0, by rw [applyGroupPatch_id, hid]⟩
  refine ⟨?_, ?_, ?_, ?_, ?_, ?_⟩
  · intro g hg o hm
    rw [hreo]
    have h1 : applyGroupPatch GP g ∈ dmid.groups := List.mem_map_of_mem _ hg
    rw [applyGroupPatch_of_some hm] at h1
    exact mem_normalize_groups h1 (by simpa using hgen g hg)
  · intro g hg hnamed
    rw [hreo]
    have hnone : mapGet GP g.id = none := by
      refine mapGet_eq_none ?_
      intro e he
      obtain ⟨e0, he0, he0eq⟩ := List.mem_map.mp he
      rw [← he0eq]
      exact hnamed e0 he0
    have h1 : applyGroupPatch GP g ∈ dmid.groups := List.mem_map_of_mem _ hg
    rw [applyGroupPatch_of_none hnone] at h1
    exact mem_normalize_groups h1 (hgen g hg)
  · intro s hs o hm
    rw [hreo]
    have h1 : applySectionPatch SP s ∈ dmid.sections := List.mem_map_of_mem _ hs
    rw [applySectionPatch_of_some hm] at h1
    exact mem_normalize_sections h1 (hgrpex _ (hsecv s hs))
  · intro s hs hnamed
    rw [hreo]
    have hnone : mapGet SP s.id = none := by
      refine mapGet_eq_none ?_
      intro e he
      obtain ⟨e0, he0, he0eq⟩ := List.mem_map.mp he
      rw [← he0eq]
      exact hnamed e0 he0
    have h1 : applySectionPatch SP s ∈ dmid.sections := List.mem_map_of_mem _ hs
    rw [applySectionPatch_of_none hnone] at h1
    exact mem_normalize_sections h1 (hgrpex _ (hsecv s hs))
  · intro l hl p hm htarget
    rw [hreo]
    have h1 : applyLinkPatch LP l ∈ dmid.links := List.mem_map_of_mem _ hl
    rw [applyLinkPatch_of_some hm] at h1
    exact mem_normalize_links h1 (hgrpex _ htarget)
  · intro l hl hnamed
    rw [hreo]
    have hnone : mapGet LP l.id = none := by
      refine mapGet_eq_none ?_
      intro e he
      obtain ⟨e0, he0, he0eq⟩ := List.mem_map.mp he
      rw [← he0eq]
      exact hnamed e0 he0
    have h1 : applyLinkPatch LP l ∈ dmid.links := List.mem_map_of_mem _ hl
    rw [applyLinkPatch_of_none hnone] at h1
    exact mem_normalize_links h1 (hgrpex _ (hlinkv l hl))

/-- Concrete instantiation of the reorder property: one request that renames
group g1's order to 9 and moves link l2 to group g2 with order 4 in the same
save; link l1 is not named, so it is carried over unchanged. -/
theorem reorder_applies_batch_witness :
    ({ lDocs with groupId := "g2", sectionId := none, order := 4 } : LinkItem)
      ∈ (reorder sampleDoc [⟨"g1", 9⟩] [] [⟨"l2", 4, some "g2", none⟩]).links ∧
    ({ gDev with order := 9 } : Group)
      ∈ (reorder sampleDoc [⟨"g1", 9⟩] [] [⟨"l2", 4, some "g2", none⟩]).groups ∧
    lHub ∈ (reorder sampleDoc [⟨"g1", 9⟩] [] [⟨"l2", 4, some "g2", none⟩]).links := by
  have h := reorder_applies_batch sampleDoc [⟨"g1", 9⟩] [] [⟨"l2", 4, some "g2", none⟩]
    (by decide)
  refine ⟨?_, ?_, ?_⟩
  · exact h.2.2.2.2.1 lDocs (by decide) ⟨"l2", 4, some "g2", none⟩ (by decide) (by decide)
  · exact h.1 gDev (by decide) 9 (by decide)
  · exact h.2.2.2.2.2 lHub (by decide) (by decide)

/-- Concrete instantiation of the create-order property: creating a section
in group g1 of the sample document. -/
theorem create_order_assignment_witness :
    (∃ g ∈ sampleDoc.groups, g.id = "g1") ∧
    (∃ sec d2, createSection sampleDoc "g1" "extra" "s9" = Except.ok (sec, d2) ∧
      (∀ s ∈ sampleDoc.sections, s.groupId = "g1" → s.order < sec.order) ∧
      (sampleDoc.sections.filter (fun s => s.groupId == "g1") = [] → sec.order = 0) ∧
      (sampleDoc.sections.filter (fun s => s.groupId == "g1") ≠ [] →
        ∃ s0 ∈ sampleDoc.sections, s0.groupId = "g1" ∧ sec.order = s0.order + 1)) :=
  ⟨by decide, create_order_assignment.2.2.1 sampleDoc "g1" "extra" "s9" (by decide)⟩

theorem storeGet_storeDelete (st : List (String × Int)) (ip : String) :
    storeGet (storeDelete st ip) ip = none := by
  rw [storeGet, storeDelete, List.find?_eq_none.mpr]
  · rfl
  · intro x hx
    have := (List.mem_filter.mp hx).2
    simpa using this

theorem storeGet_storePut (st : List (String × Int)) (ip : String) (v : Int) :
    storeGet (storePut st ip v) ip = some v := by
  rw [storePut, storeGet]
  have hfind : ((storeDelete st ip) ++ [(ip, v)]).find? (fun e => e.1 == ip) = some (ip, v) := by
    rw [storeDelete]
    induction st with
    | nil => simp
    | cons e es ih =>
      by_cases h : e.1 = ip
      · simpa [List.filter_cons, h] using ih
      · rw [List.filter_cons, if_pos (by simpa using h), List.cons_append,
          List.find?_cons_of_neg _ (by simpa using h)]
        exact ih
  rw [hfind]
  rfl

theorem login_unfold (pw : String) (st : List (String × Int)) (ip : String)
    (body : Option String) (h : ¬ jsTrim pw = "") :
    login (some pw) st ip body =
      (if jsTrim (body.getD "") == "" then
        { penaltyMs := loginDelay st ip, status := 400, failStore := st }
      else if jsTrim (body.getD "") != jsTrim pw then
        { penaltyMs := loginDelay st ip, status := 401
          failStore := storePut st ip (max 0 ((storeGet st ip).getD 0) + 1) }
      else { penaltyMs := loginDelay st ip, status := 200, failStore := storeDelete st ip }) := by
  unfold login
  simp only [Option.getD_some]
  rw [if_neg (by simpa using h)]
  rfl

/-- Claim C4: when the stored failure count f of the requesting IP is
positive, the login handler sleeps min(8000, 700 + 700·f) milliseconds; this
penalty is computed from the failure store alone (before the submitted
password is even read) and is monotonically non-decreasing in f; a wrong
password stores f+1; a correct password deletes the IP's record. -/
theorem login_backoff :
    (∀ (pw : String) (st : List (String × Int)) (ip : String) (body : Option String) (f : Int),
      jsTrim pw ≠ "" → storeGet st ip = some f → 0 < f →
      (login (some pw) st ip body).penaltyMs = min 8000 (700 + 700 * f)) ∧
    (∀ f g : Int, 0 ≤ f → f ≤ g → loginPenalty f ≤ loginPenalty g) ∧
    (∀ (pw : String) (st : List (String × Int)) (ip : String) (b1 b2 : Option String),
      (login (some pw) st ip b1).penaltyMs = (login (some pw) st ip b2).penaltyMs) ∧
    (∀ (pw : String) (st : List (String × Int)) (ip : String) (body : String) (f : Int),
      jsTrim pw ≠ "" → jsTrim body ≠ "" → jsTrim body ≠ jsTrim pw →
      storeGet st ip = some f → 0 ≤ f →
      (login (some pw) st ip (some body)).status = 401 ∧
      storeGet (login (some pw) st ip (some body)).failStore ip = some (f + 1)) ∧
    (∀ (pw : String) (st : List (String × Int)) (ip : String) (body : String),
      jsTrim pw ≠ "" → jsTrim body = jsTrim pw →
      (login (some pw) st ip (some body)).status = 200 ∧
      storeGet (login (some pw) st ip (some body)).failStore ip = none) := by
  refine ⟨?_, ?_, ?_, ?_, ?_⟩
  · intro pw st ip body f hpw hget hf
    rw [login_unfold pw st ip body hpw]
    have hpen : loginDelay st ip = min 8000 (700 + 700 * f) := by
      rw [loginDelay]
      have hmax : max 0 ((storeGet st ip).getD 0) = f := by
        rw [hget]
        simpa using le_of_lt hf
      rw [hmax, if_pos hf, loginPenalty, Int.mul_comm]
    split_ifs <;> exact hpen
  · intro f g hf hfg
    rw [loginPenalty, loginPenalty]
    exact min_le_min (le_refl 8000) (by omega)
  · intro pw st ip b1 b2
    by_cases h : jsTrim pw = ""
    · unfold login
      simp only [Option.getD_some]
      rw [if_pos (by simpa using h), if_pos (by simpa using h)]
    · rw [login_unfold pw st ip b1 h, login_unfold pw st ip b2 h]
      split_ifs <;> rfl
  · intro pw st ip body f hpw hbody hne hget hf
    rw [login_unfold pw st ip (some body) hpw]
    rw [if_neg (by simpa using hbody), if_pos (by simpa using hne)]
    refine ⟨rfl, ?_⟩
    show storeGet (storePut st ip (max 0 ((storeGet st ip).getD 0) + 1)) ip = some (f + 1)
    rw [storeGet_storePut, hget]
    congr 1
    simpa using hf
  · intro pw st ip body hpw heq
    rw [login_unfold pw st ip (some body) hpw]
    have hbody : ¬ jsTrim body = "" := by
      rw [heq]
      exact hpw
    rw [if_neg (by simpa using hbody), if_neg (by simpa using heq)]
    exact ⟨rfl, storeGet_storeDelete st ip⟩

/-- Concrete instantiation of the backoff property: an IP with 3 recorded
failures submitting a wrong password against password pw. -/
theorem login_backoff_witness :
    jsTrim "pw" ≠ "" ∧ storeGet [("1.2.3.4", 3)] "1.2.3.4" = some 3 ∧
    (login (some "pw") [("1.2.3.4", 3)] "1.2.3.4" (some "bad")).penaltyMs
        = min 8000 (700 + 700 * 3) ∧
    (login (some "pw") [("1.2.3.4", 3)] "1.2.3.4" (some "bad")).status = 401 ∧
    storeGet (login (some "pw") [("1.2.3.4", 3)] "1.2.3.4" (some "bad")).failStore "1.2.3.4"
        = some 4 ∧
    storeGet (login (some "pw") [("1.2.3.4", 3)] "1.2.3.4" (some "pw")).failStore "1.2.3.4"
        = none :=
  ⟨by decide, by decide,
    login_backoff.1 "pw" [("1.2.3.4", 3)] "1.2.3.4" (some "bad") 3 (by decide) (by decide)
      (by decide),
    (login_backoff.2.2.2.1 "pw" [("1.2.3.4", 3)] "1.2.3.4" "bad" 3 (by decide) (by decide)
      (by decide) (by decide) (by decide)).1,
    (login_backoff.2.2.2.1 "pw" [("1.2.3.4", 3)] "1.2.3.4" "bad" 3 (by decide) (by decide)
      (by decide) (by decide) (by decide)).2,
    (login_backoff.2.2.2.2 "pw" [("1.2.3.4", 3)] "1.2.3.4" "pw" (by decide) (by decide)).2⟩

/-- Claim C7 (amended): the fetch-title endpoint returns 400 for a URL with
credentials, an IP-literal hostname, or a private/loopback hostname, whatever
the fetch would have produced (the guards run before the fetch); for a fetched
2xx response it returns 415 on a non-HTML content-type and 422 when no
non-empty trimmed title was extracted (a fetched non-2xx response is instead
relayed with the upstream status); a timeout yields 504 and any other fetch
failure 502. -/
theorem fetchTitle_status_mapping :
    (∀ (u : UrlParts) (fr : FetchOutcome),
      (u.username ≠ "" ∨ u.password ≠ "" ∨ isIpHostname u.hostname = true ∨
        isProbablyPrivateHost u.hostname = true) →
      fetchTitleStatus u fr = 400) ∧
    (∀ (u : UrlParts) (st : Nat) (ct : String) (t : Option String),
      u.username = "" → u.password = "" → isIpHostname u.hostname = false →
      isProbablyPrivateHost u.hostname = false →
      resOk st = true →
      strContains (jsLower ct) "text/html" = false →
      strContains (jsLower ct) "application/xhtml+xml" = false →
      fetchTitleStatus u (FetchOutcome.success st ct t) = 415) ∧
    (∀ (u : UrlParts) (st : Nat) (ct : String) (t : Option String),
      u.username = "" → u.password = "" → isIpHostname u.hostname = false →
      isProbablyPrivateHost u.hostname = false →
      resOk st = true →
      (strContains (jsLower ct) "text/html" = true ∨
        strContains (jsLower ct) "application/xhtml+xml" = true) →
      (t.map jsTrim).getD "" = "" →
      fetchTitleStatus u (FetchOutcome.success st ct t) = 422) ∧
    (∀ u : UrlParts,
      u.username = "" → u.password = "" → isIpHostname u.hostname = false →
      isProbablyPrivateHost u.hostname = false →
      fetchTitleStatus u FetchOutcome.timeout = 504) ∧
    (∀ u : UrlParts,
      u.username = "" → u.password = "" → isIpHostname u.hostname = false →
      isProbablyPrivateHost u.hostname = false →
      fetchTitleStatus u FetchOutcome.failed = 502) := by
  refine ⟨?_, ?_, ?_, ?_, ?_⟩
  · intro u fr hguard
    unfold fetchTitleStatus
    split_ifs with h1 h2 h3
    · rfl
    · rfl
    · rfl
    · exfalso
      simp only [Bool.or_eq_true, bne_iff_ne, ne_eq] at h1
      rcases hguard with h | h | h | h
      · exact h1 (Or.inl h)
      · exact h1 (Or.inr h)
      · exact h2 h
      · exact h3 h
  · intro u st ct t hu hp hip hpriv hok hct1 hct2
    unfold fetchTitleStatus
    rw [if_neg (by simp [hu, hp]), if_neg (by simp [hip]), if_neg (by simp [hpriv])]
    show (if !resOk st then (st : Nat)
      else if !strContains (jsLower ct) "text/html"
          && !strContains (jsLower ct) "application/xhtml+xml" then 415
      else if (t.map jsTrim).getD "" == "" then 422 else 200) = 415
    rw [if_neg (by simp [hok]), if_pos (by simp [hct1, hct2])]
  · intro u st ct t hu hp hip hpriv hok hct htitle
    unfold fetchTitleStatus
    rw [if_neg (by simp [hu, hp]), if_neg (by simp [hip]), if_neg (by simp [hpriv])]
    show (if !resOk st then (st : Nat)
      else if !strContains (jsLower ct) "text/html"
          && !strContains (jsLower ct) "application/xhtml+xml" then 415
      else if (t.map jsTrim).getD "" == "" then 422 else 200) = 422
    rw [if_neg (by simp [hok]),
      if_neg (by rcases hct with h | h <;> simp [h]), if_pos (by simp [htitle])]
  · intro u hu hp hip hpriv
    unfold fetchTitleStatus
    rw [if_neg (by simp [hu, hp]), if_neg (by simp [hip]), if_neg (by simp [hpriv])]
  · intro u hu hp hip hpriv
    unfold fetchTitleStatus
    rw [if_neg (by simp [hu, hp]), if_neg (by simp [hip]), if_neg (by simp [hpriv])]

/-- Concrete instantiation of the fetch-title status mapping: a private-host
URL is 400 for every fetch outcome sampled, a JSON response is 415, a titleless
HTML page is 422, a timeout is 504, another failure is 502. -/
theorem fetchTitle_status_mapping_witness :
    fetchTitleStatus ⟨"", "", "192.168.1.7"⟩ FetchOutcome.timeout = 400 ∧
    fetchTitleStatus ⟨"", "", "example.com"⟩
        (FetchOutcome.success 200 "application/json" (some "Hi")) = 415 ∧
    fetchTitleStatus ⟨"", "", "example.com"⟩
        (FetchOutcome.success 200 "Text/HTML; charset=utf-8" (some "  ")) = 422 ∧
    fetchTitleStatus ⟨"", "", "example.com"⟩ FetchOutcome.timeout = 504 ∧
    fetchTitleStatus ⟨"", "", "example.com"⟩ FetchOutcome.failed = 502 :=
  ⟨fetchTitle_status_mapping.1 ⟨"", "", "192.168.1.7"⟩ FetchOutcome.timeout
      (Or.inr (Or.inr (Or.inr (by decide)))),
    fetchTitle_status_mapping.2.1 ⟨"", "", "example.com"⟩ 200 "application/json" (some "Hi")
      rfl rfl (by decide) (by decide) (by decide) (by decide) (by decide),
    fetchTitle_status_mapping.2.2.1 ⟨"", "", "example.com"⟩ 200 "Text/HTML; charset=utf-8"
      (some "  ") rfl rfl (by decide) (by decide) (by decide) (Or.inl (by decide)) (by decide),
    fetchTitle_status_mapping.2.2.2.1 ⟨"", "", "example.com"⟩ rfl rfl (by decide) (by decide),
    fetchTitle_status_mapping.2.2.2.2 ⟨"", "", "example.com"⟩ rfl rfl (by decide) (by decide)⟩

/-- Counterexample to claim C7 as stated: a fetched non-2xx response carrying
a non-HTML content-type is relayed with the upstream status (here 500), not
mapped to 415 — the content-type check only runs for ok (2xx) responses. -/
theorem fetchTitle_non2xx_not_415 :
    strContains (jsLower "application/json") "text/html" = false ∧
    strContains (jsLower "application/json") "application/xhtml+xml" = false ∧
    fetchTitleStatus ⟨"", "", "example.com"⟩
        (FetchOutcome.success 500 "application/json" (some "Hi")) = 500 ∧
    fetchTitleStatus ⟨"", "", "example.com"⟩
        (FetchOutcome.success 500 "application/json" (some "Hi")) ≠ 415 := by
  refine ⟨by decide, by decide, by decide, by decide⟩

/-- Claim C8: with no password configured (env PASSWORD unset or blank),
every admin write operation answers 503 whatever the session token and
document are, while the public `GET /api/links` handler still returns 200
with the normalized document. -/
theorem missing_password_503 :
    (∀ (pw : Option String) (tok : TokenState) (d : NavData) (op : AdminOp),
      missingPassword pw = true → adminRoute pw tok d op = Except.error 503) ∧
    (∀ (pw : Option String) (d : NavData),
      missingPassword pw = true → getLinksHandler d = (200, normalizeData d)) := by
  constructor
  · intro pw tok d op h
    unfold adminRoute requireAuth
    rw [if_pos h]
  · intro pw d h
    rfl

/-- Concrete instantiation: a blank password makes a group deletion answer
503 while the public read still serves the normalized sample document. -/
theorem missing_password_503_witness :
    missingPassword (some "   ") = true ∧
    adminRoute (some "   ") TokenState.valid sampleDoc (AdminOp.deleteGroupA "g1")
        = Except.error 503 ∧
    getLinksHandler sampleDoc = (200, normalizeData sampleDoc) :=
  ⟨by decide,
    missing_password_503.1 (some "   ") TokenState.valid sampleDoc
      (AdminOp.deleteGroupA "g1") (by decide),
    missing_password_503.2 (some "   ") sampleDoc (by decide)⟩

theorem mem_setFirst {α : Type} {p : α → Bool} {x : α} {l : List α}
    (h : ∃ y ∈ l, p y = true) : x ∈ setFirst p x l := by
  induction l with
  | nil =>
    obtain ⟨y, hy, _⟩ := h
    cases hy
  | cons z zs ih =>
    by_cases hz : p z = true
    · simp [setFirst, hz]
    · obtain ⟨y, hy, hpy⟩ := h
      rcases List.mem_cons.mp hy with heq | hmem
      · exact absurd (heq ▸ hpy) hz
      · rw [setFirst, if_neg hz]
        exact List.mem_cons_of_mem _ (ih ⟨y, hmem, hpy⟩)

/-- Claim C9: a create or update of a link that supplies a sectionId naming
no section of the link's target group still succeeds; the link is saved with
its sectionId cleared to the unassigned state instead of the request
failing. -/
theorem invalid_sectionId_cleared :
    (∀ (d : NavData) (b : CreateLinkBody) (newId fallbackIcon : String) (sid : String),
      (∃ g ∈ d.groups, g.id = b.groupId) →
      optSecTrim b.sectionId = some sid →
      (¬ ∃ s ∈ d.sections, s.id = sid ∧ s.groupId = b.groupId) →
      ∃ link d2, createLink d b newId fallbackIcon = Except.ok (link, d2) ∧
        link.sectionId = none ∧ link ∈ d2.links) ∧
    (∀ (d : NavData) (id : String) (b : UpdateLinkBody) (fallbackIcon : String)
        (current : LinkItem) (sid : String),
      d.links.find? (fun l => l.id == id) = some current →
      (∃ g ∈ d.groups, g.id = b.groupId.getD current.groupId) →
      b.sectionId = some (some sid) → sid ≠ "" →
      (¬ ∃ s ∈ d.sections, s.id = sid ∧ s.groupId = b.groupId.getD current.groupId) →
      ∃ link d2, updateLink d id b fallbackIcon = Except.ok (link, d2) ∧
        link.sectionId = none ∧ link ∈ d2.links) := by
  constructor
  · intro d b newId fallbackIcon sid hg hopt hnosec
    have hanysec : d.sections.any (fun s => s.id == sid && s.groupId == b.groupId) = false := by
      rw [← Bool.not_eq_true]
      intro hx
      obtain ⟨s, hs, hpred⟩ := List.any_eq_true.mp hx
      rw [Bool.and_eq_true] at hpred
      exact hnosec ⟨s, hs, by simpa using hpred.1, by simpa using hpred.2⟩
    have hkey : createLinkSectionId d b = none := by
      rw [createLinkSectionId, hopt]
      show (if d.sections.any (fun s => s.id == sid && s.groupId == b.groupId) then some sid
        else none) = none
      rw [hanysec]
      rfl
    obtain ⟨link, hrun, _, hsid, _, _, _, hmem⟩ := createLink_spec d b newId fallbackIcon hg
    exact ⟨link, _, hrun, by rw [hsid, hkey], hmem⟩
  · intro d id b fallbackIcon current sid hfind hg hbsid hsidne hnosec
    have hany : d.groups.any (fun g => g.id == b.groupId.getD current.groupId) = true := by
      obtain ⟨g, hgm, hid⟩ := hg
      exact List.any_eq_true.mpr ⟨g, hgm, by simp [hid]⟩
    have hrun : updateLink d id b fallbackIcon
        = Except.ok (updateLinkNew d current b fallbackIcon,
            normalizeData
              { d with
                links := setFirst (fun l => l.id == id)
                  (updateLinkNew d current b fallbackIcon) d.links }) := by
      unfold updateLink
      rw [hfind]
      show (if d.groups.any (fun g => g.id == b.groupId.getD current.groupId) then _ else
        Except.error 404) = _
      rw [hany]
      rfl
    have hraw : updateLinkRawSectionId b = some sid := by
      rw [updateLinkRawSectionId, hbsid]
      show (if sid == "" then none else some sid) = some sid
      rw [if_neg (by simpa using hsidne)]
    have hanysec : d.sections.any
        (fun s => s.id == sid && s.groupId == b.groupId.getD current.groupId) = false := by
      rw [← Bool.not_eq_true]
      intro hx
      obtain ⟨s, hs, hpred⟩ := List.any_eq_true.mp hx
      rw [Bool.and_eq_true] at hpred
      exact hnosec ⟨s, hs, by simpa using hpred.1, by simpa using hpred.2⟩
    have hsidnone : (updateLinkNew d current b fallbackIcon).sectionId = none := by
      show updateLinkNextSectionId d (b.groupId.getD current.groupId)
        (updateLinkRawSectionId b) = none
      rw [hraw, updateLinkNextSectionId]
      show (if d.sections.any
          (fun s => s.id == sid && s.groupId == b.groupId.getD current.groupId) then some sid
        else none) = none
      rw [hanysec]
      rfl
    refine ⟨_, _, hrun, hsidnone, ?_⟩
    refine mem_normalize_links (mem_setFirst ?_) ?_
    · have hpcur : (current.id == id) = true :=
        @List.find?_some _ (fun l => l.id == id) current d.links hfind
      exact ⟨current, List.mem_of_find?_eq_some hfind, hpcur⟩
    · exact hg

/-- Concrete instantiation: creating and updating a link in group g2 of the
sample document while naming section s1 (which belongs to g1) both succeed
with the stored sectionId cleared. -/
theorem invalid_sectionId_cleared_witness :
    (∃ link d2,
      createLink sampleDoc ⟨"g2", some "s1", "t", "https://t.test", none, none⟩ "l9" "FB"
          = Except.ok (link, d2) ∧
      link.sectionId = none ∧ link ∈ d2.links) ∧
    (∃ link d2,
      updateLink sampleDoc "l1" ⟨some "g2", some (some "s1"), none, none, none, none⟩ "FB"
          = Except.ok (link, d2) ∧
      link.sectionId = none ∧ link ∈ d2.links) :=
  ⟨invalid_sectionId_cleared.1 sampleDoc ⟨"g2", some "s1", "t", "https://t.test", none, none⟩
      "l9" "FB" "s1" (by decide) (by decide) (by decide),
    invalid_sectionId_cleared.2 sampleDoc "l1"
      ⟨some "g2", some (some "s1"), none, none, none, none⟩ "FB" lHub "s1" (by decide)
      (by decide) rfl (by decide) (by decide)⟩

/-- Claim C10: `GET /api/me` always answers 200, never 401; a present
non-empty token that fails verification under a configured password yields
authed:false plus a clearing Set-Cookie; a missing or blank password yields
authed:false even when a token is present. -/
theorem apiMe_never_401 :
    (∀ (pw : Option String) (tok : Option String) (v : Bool), (apiMe pw tok v).status = 200) ∧
    (∀ (pw : Option String) (t : String) (v : Bool),
      t ≠ "" → missingPassword pw = false → v = false →
      apiMe pw (some t) v = { status := 200, authed := false, clearsCookie := true }) ∧
    (∀ (pw : Option String) (tok : Option String) (v : Bool),
      missingPassword pw = true → (apiMe pw tok v).authed = false) := by
  refine ⟨?_, ?_, ?_⟩
  · intro pw tok v
    unfold apiMe
    split_ifs <;> rfl
  · intro pw t v ht hmp hv
    unfold apiMe
    rw [if_neg (by simpa using ht), if_neg (by simp [hmp]), if_neg (by simp [hv])]
  · intro pw tok v h
    unfold apiMe
    split_ifs <;> rfl

/-- Concrete instantiation: an invalid token under a configured password is
cleared with authed:false; a token under a blank password yields
authed:false. -/
theorem apiMe_never_401_witness :
    (apiMe (some "pw") (some "tok") true).status = 200 ∧
    apiMe (some "pw") (some "tok") false
        = { status := 200, authed := false, clearsCookie := true } ∧
    (apiMe (some " ") (some "tok") true).authed = false :=
  ⟨apiMe_never_401.1 (some "pw") (some "tok") true,
    apiMe_never_401.2.1 (some "pw") "tok" false (by decide) (by decide) rfl,
    apiMe_never_401.2.2 (some " ") (some "tok") true (by decide)⟩

end TinyNav
